import Mathlib

/-!
Shallow embedding of the OpenAI-compatible chat-completion route of Perplexica
(routes/openai-completion.ts): the zod request schema plus the manual
last-message check, first-available provider and model selection, and the SSE
stream bridge driven by the data, end and error events of the web-search
agent. The agent itself is external; a request is therefore evaluated against
an explicit trace, the list of data events followed by a terminator signal.
-/

namespace Perplexica

/-- JavaScript optional value: distinguishes an absent field (undefined) from
an explicit null and from a present value. -/
inductive JsOpt (α : Type) where
  | undef
  | null
  | val (a : α)
deriving DecidableEq, Repr

/-- Truthiness of a nullable boolean, as tested by the condition
if (response_raw). Only a present true is truthy. -/
def JsOpt.truthy : JsOpt Bool → Bool
  | .val true => true
  | _ => false

/-- The zod default: an absent value (undefined) is replaced by the default,
an explicit null is kept as null, a present value is kept. -/
def JsOpt.withDefault : JsOpt α → α → JsOpt α
  | .undef, d => .val d
  | x, _ => x

/-- Result of a runtime JSON parse of an agent payload. The bridge only ever
reads the fields named type and data of an object and compares the former with
the string literal response; all JSON shapes are representable so that the
dispatch on them is faithful. -/
inductive JsonValue where
  | str (s : String)
  | num (n : Int)
  | boolean (b : Bool)
  | jnull
  | arr (elems : List JsonValue)
  | obj (fields : List (String × JsonValue))

/-- JavaScript property access on a parsed JSON value. Access on null throws
a TypeError (error result); a missing field, or access on any other
non-object value (numbers, strings, booleans), yields undefined (ok none). -/
def JsonValue.getField : JsonValue → String → Except Unit (Option JsonValue)
  | .jnull, _ => .error ()
  | .obj fields, key => .ok (fields.lookup key)
  | _, _ => .ok none

/-- The strict comparison of a read field value with the string literal
response: true exactly when the field is present and is that string. -/
def isResponseField : Option JsonValue → Bool
  | some (.str s) => s == "response"
  | _ => false

/-- The test parsedData.type === "response" on a payload whose type access
does not throw; false when the access throws (that case is routed to the
throw branch before this test is reached). -/
def isResponseKind (v : JsonValue) : Bool :=
  match v.getField "type" with
  | .ok tf => isResponseField tf
  | .error _ => false

/-- The value of parsedData.data as read in the response branch. That branch
is reached only when the type field is a string, hence only on an object
payload, so the access cannot throw there; the error case is dead code kept
total. -/
def dataField (v : JsonValue) : Option JsonValue :=
  match v.getField "data" with
  | .ok o => o
  | .error _ => none

/-- One element of the messages array of the request body. -/
structure RawMessage where
  role : String
  content : String
deriving DecidableEq, Repr

/-- Inbound request body, with the fields the route reads. The pass-through
generation parameters (temperature, frequency_penalty, max_tokens,
presence_penalty, top_p, stop) are type-checked by the zod schema but never
read afterwards, so they are omitted from the embedding. -/
structure RawBody where
  messages : List RawMessage
  model : JsOpt String
  stream : JsOpt Bool
  response_raw : JsOpt Bool
deriving DecidableEq, Repr

/-- The parsed request parameters (type Params in the source). -/
structure Params where
  messages : List RawMessage
  model : JsOpt String
  stream : JsOpt Bool
  response_raw : JsOpt Bool
deriving DecidableEq, Repr

/-- Membership of a role in the zod enum for message roles. -/
def roleOk (r : String) : Bool :=
  r == "user" || r == "assistant" || r == "system"

/-- The zod schema requestParamsSchema: messages is a nonempty array of
records with a role from the enum and a string content (emptiness of the
content is not checked here); model must be the literal perplexica when
present, defaults to it when absent and stays null when null; stream and
response_raw default to false when absent and stay null when null. -/
def requestParamsSchema (b : RawBody) : Except String Params :=
  if ¬ (b.messages.all fun m => roleOk m.role) then
    .error "invalid enum value for role"
  else if b.messages.isEmpty then
    .error "array must contain at least 1 element"
  else
    match b.model with
    | .val m =>
      if m == "perplexica" then
        .ok ⟨b.messages, .val m, b.stream.withDefault false, b.response_raw.withDefault false⟩
      else .error "invalid enum value for model"
    | .null =>
      .ok ⟨b.messages, .null, b.stream.withDefault false, b.response_raw.withDefault false⟩
    | .undef =>
      .ok ⟨b.messages, .val "perplexica", b.stream.withDefault false, b.response_raw.withDefault false⟩

/-- The try block of the route: the zod parse followed by the manual check
that the messages array is nonempty and that its last element is a user
message with non-empty content; any failure is caught by the route and turned
into a 400 invalid_request_error response. -/
def validate (b : RawBody) : Except String Params :=
  match requestParamsSchema b with
  | .error e => .error e
  | .ok p =>
    match p.messages.getLast? with
    | none => .error "Invalid messages, last message must be from user"
    | some lastMsg =>
      if lastMsg.role == "user" && lastMsg.content != "" then .ok p
      else .error "Invalid messages, last message must be from user"

/-- The request fields destructured after validation and captured by the
stream callbacks: const (model, messages, response_raw) = json. Only model and
response_raw influence the response state; messages feed the external agent. -/
structure ReqCtx where
  model : JsOpt String
  response_raw : JsOpt Bool
deriving DecidableEq, Repr

/-- Destructuring of the validated parameters into the captured context. -/
def Params.ctx (p : Params) : ReqCtx := ⟨p.model, p.response_raw⟩

/-- One element of the choices array of a completion chunk; delta.content is
flattened into deltaContent (none models a JavaScript undefined, whose key is
dropped by the JSON serializer). -/
structure Choice where
  deltaContent : Option JsonValue
  index : Nat
  finish_reason : Option String

/-- The wire chunk built by createDelta. -/
structure CompletionChunk where
  id : String
  object : String
  created : Nat
  model : JsOpt String
  choices : List Choice

/-- The JSON error body written by throwErr: error.type, error.message,
error.param (always null) and error.code. -/
structure ErrorBody where
  type : String
  message : String
  param : Option String
  code : Nat

/-- One item committed to the HTTP body: an SSE chunk line, the literal
data: [DONE] line, or a structured JSON error object. -/
inductive BodyItem where
  | chunk (c : CompletionChunk)
  | done
  | errorJson (e : ErrorBody)

/-- Observable state of the HTTP response object: whether the lazy stream
start already ran, the committed status, the headers set by the route itself,
the body items written, and whether the response has been ended. -/
structure ResState where
  started : Bool
  status : Option Nat
  headers : List (String × String)
  body : List BodyItem
  ended : Bool

/-- The response state at entry of the route. -/
def ResState.initial : ResState := ⟨false, none, [], [], false⟩

/-- Per-request ambient data: the uuid generated at request entry and the
wall clock, sampled through the number of chunks already written. -/
structure Env where
  id : String
  clock : Nat → Nat

/-- The helper throwErr: res.status(code).json with the structured error
object; it commits the status, writes the error body and ends the response. -/
def throwErr (st : ResState) (code : Nat) (ty msg : String) : ResState :=
  { st with status := some code
          , body := st.body ++ [.errorJson ⟨ty, msg, none, code⟩]
          , ended := true }

/-- The three streaming headers set when the stream starts. -/
def sseHeaders : List (String × String) :=
  [("Content-Type", "text/event-stream"),
   ("Cache-Control", "no-cache"),
   ("Connection", "keep-alive")]

/-- The guard startStreamIfNeed: on the first call it commits status 200 and
the streaming headers; afterwards it does nothing. -/
def startStreamIfNeed (st : ResState) : ResState :=
  if st.started then st
  else { st with started := true, status := some 200, headers := st.headers ++ sseHeaders }

/-- The completion chunks among the committed body items, in order. -/
def chunksOf (body : List BodyItem) : List CompletionChunk :=
  body.filterMap fun
    | .chunk c => some c
    | _ => none

/-- The helper createDelta: one chunk carrying the request uuid, the constant
object tag, a clock sample, the request model and a single choice at index 0.
The argument n is the number of chunks already written and indexes the clock. -/
def createDelta (env : Env) (ctx : ReqCtx) (n : Nat) (content : Option JsonValue)
    (finish_reason : Option String) : CompletionChunk :=
  { id := env.id
  , object := "chat.completion.chunk"
  , created := env.clock n
  , model := ctx.model
  , choices := [⟨content, 0, finish_reason⟩] }

/-- The helper writeDelta: start the stream if needed, then append one SSE
chunk line built by createDelta. -/
def writeDelta (env : Env) (ctx : ReqCtx) (st : ResState) (content : Option JsonValue)
    (finish_reason : Option String) : ResState :=
  let st1 := startStreamIfNeed st
  { st1 with
      body := st1.body ++ [.chunk (createDelta env ctx (chunksOf st1.body).length content finish_reason)] }

/-- One data event of the agent event source: the raw payload string given to
the callback together with the outcome of JSON.parse on it. The parse outcome
is carried inside the event because the embedding does not reimplement the
JSON grammar; an error value models a parse exception. -/
structure DataEvent where
  raw : String
  parsed : Except Unit JsonValue

/-- The data callback. In raw mode the payload is forwarded verbatim.
Otherwise JSON.parse is consulted: a parse failure is an uncaught throw
(error result carrying the response state at that point); reading the type
property of a parsed null also throws (TypeError); a payload whose type
field is the string response is forwarded with its data field as content;
any other parsed value is dropped. -/
def onData (env : Env) (ctx : ReqCtx) (st : ResState) (ev : DataEvent) :
    Except ResState ResState :=
  if ctx.response_raw.truthy then
    .ok (writeDelta env ctx st (some (.str ev.raw)) none)
  else
    match ev.parsed with
    | .error _ => .error st
    | .ok v =>
      match v.getField "type" with
      | .error _ => .error st
      | .ok tf =>
        if isResponseField tf then .ok (writeDelta env ctx st (dataField v) none)
        else .ok st

/-- Sequential processing of the data events of a trace; a throw in the data
callback aborts the processing, leaving the response state committed so far. -/
def processEvents (env : Env) (ctx : ReqCtx) (st : ResState) :
    List DataEvent → Except ResState ResState
  | [] => .ok st
  | ev :: rest =>
    match onData env ctx st ev with
    | .error st1 => .error st1
    | .ok st1 => processEvents env ctx st1 rest

/-- The end callback: one stop chunk with empty content, the literal
data: [DONE] line, then res.end. -/
def onEnd (env : Env) (ctx : ReqCtx) (st : ResState) : ResState :=
  let st1 := writeDelta env ctx st (some (.str "")) (some "stop")
  { st1 with body := st1.body ++ [.done], ended := true }

/-- The error callback: if streaming has started the body is closed as is,
otherwise a 500 JSON error with a generic constant message is sent (the
underlying error is only logged, never written to the response). -/
def onError (st : ResState) : ResState :=
  if st.started then { st with ended := true }
  else throwErr st 500 "internal_server_error" "An error has occurred please try again later"

/-- A provider catalog: the ordered association of provider name to the
ordered list of its model names. Model handles are opaque objects and always
truthy, so only the key structure matters. -/
abbrev Catalog := List (String × List String)

/-- First-provider first-model selection, mirroring
Object.keys(cat)[0] and Object.keys(cat[provider])[0]. On an empty catalog
the provider is undefined and Object.keys of cat[undefined] raises a
TypeError, modelled as the error result; on an empty first model map the
selected model is undefined (ok none), and the later truthiness guard leaves
the handle undefined. -/
def selectFirstModel (cat : Catalog) : Except Unit (Option String) :=
  match cat with
  | [] => .error ()
  | (_, models) :: _ => .ok models.head?

/-- Terminator of the agent event source: the normal end signal or the error
signal. -/
inductive Terminator where
  | endOfStream
  | errorSignal
deriving DecidableEq, Repr

/-- Outcome of one request: ok is a response the handler produced itself,
thrown is the response state left behind by an uncaught exception (the
request is never answered in that case). -/
inductive Outcome where
  | ok (r : ResState)
  | thrown (r : ResState)

/-- The response state carried by an outcome. -/
def Outcome.resState : Outcome → ResState
  | .ok r => r
  | .thrown r => r

/-- The route after successful validation: provider and model selection for
chat and embeddings, the availability guard, then the bridge over the agent
trace. -/
def routeAfterValidate (ctx : ReqCtx) (chatCat embCat : Catalog)
    (events : List DataEvent) (term : Terminator) (env : Env) : Outcome :=
  match selectFirstModel chatCat with
  | .error _ => .thrown ResState.initial
  | .ok llm =>
    match selectFirstModel embCat with
    | .error _ => .thrown ResState.initial
    | .ok embeddings =>
      if llm.isNone || embeddings.isNone then
        .ok (throwErr ResState.initial 500 "internal_server_error" "Model or Embedding not found")
      else
        match processEvents env ctx ResState.initial events with
        | .error st => .thrown st
        | .ok st =>
          match term with
          | .endOfStream => .ok (onEnd env ctx st)
          | .errorSignal => .ok (onError st)

/-- The POST /chat/completions handler, evaluated against one agent trace:
validation (any failure becomes a 400 invalid_request_error), then the rest
of the route on the destructured context. -/
def chatCompletions (b : RawBody) (chatCat embCat : Catalog)
    (events : List DataEvent) (term : Terminator) (env : Env) : Outcome :=
  match validate b with
  | .error e => .ok (throwErr ResState.initial 400 "invalid_request_error" e)
  | .ok p => routeAfterValidate p.ctx chatCat embCat events term env

/-- Modelled from the spec (section 4.4, forwarding rules), for comparison
with the data callback: the delta contents the bridge should forward for a
trace, in order. -/
def forwardedContents (rawMode : Bool) (evs : List DataEvent) : List (Option JsonValue) :=
  if rawMode then evs.map fun ev => some (.str ev.raw)
  else
    (evs.filter fun ev =>
        match ev.parsed with
        | .ok v => isResponseKind v
        | .error _ => false).map fun ev =>
      match ev.parsed with
      | .ok v => dataField v
      | .error _ => none

/-- The delta content of each committed chunk, in order (every chunk built by
createDelta has exactly one choice). -/
def chunkContents (body : List BodyItem) : List (Option JsonValue) :=
  body.filterMap fun
    | .chunk c =>
      match c.choices with
      | ch :: _ => some ch.deltaContent
      | [] => none
    | _ => none

/-- Whether a chunk carries a non-null finish reason in some choice. -/
def hasFinish (c : CompletionChunk) : Bool :=
  c.choices.any fun ch => ch.finish_reason.isSome

/-- Shape invariant of every emitted chunk: the request uuid, the constant
object tag, a clock-derived timestamp, the request model, and exactly one
choice at index 0 whose content is a string and whose finish reason is null
unless it is the stop marker on empty content. -/
def goodChunk (env : Env) (ctx : ReqCtx) (c : CompletionChunk) : Prop :=
  c.id = env.id ∧
  c.object = "chat.completion.chunk" ∧
  (∃ k, c.created = env.clock k) ∧
  c.model = ctx.model ∧
  ∃ ct fr, c.choices = [⟨ct, 0, fr⟩] ∧ (∃ s, ct = some (.str s)) ∧
    (fr = none ∨ (fr = some "stop" ∧ ct = some (.str "")))

/-- Agent contract (spec sections 3 and 4.3): when the bridge parses payloads
(raw mode off), every payload parses and a payload of kind response carries a
text data field. In raw mode nothing is parsed, so no condition is needed. -/
def conformantTrace (ctx : ReqCtx) (evs : List DataEvent) : Prop :=
  ctx.response_raw.truthy = true ∨
    ∀ ev ∈ evs, ∃ v, ev.parsed = .ok v ∧
      (isResponseKind v = true → ∃ s, v.getField "data" = .ok (some (JsonValue.str s)))

/-- Invariant of the response state while only data events have been
processed: no chunk carries a finish reason, neither the DONE line nor an
error object has been written, the response is not ended, and the state is
either untouched or committed to status 200 with the streaming headers. -/
def StreamInv (st : ResState) : Prop :=
  (∀ c ∈ chunksOf st.body, hasFinish c = false) ∧
  BodyItem.done ∉ st.body ∧
  (∀ e, BodyItem.errorJson e ∉ st.body) ∧
  st.ended = false ∧
  (st.started = false → st = ResState.initial) ∧
  (st.started = true → st.status = some 200 ∧ st.headers = sseHeaders)

/-- All committed chunks satisfy the shape invariant. -/
def GoodChunks (env : Env) (ctx : ReqCtx) (st : ResState) : Prop :=
  ∀ c ∈ chunksOf st.body, goodChunk env ctx c

/-- The response state reached by a run of the data events, whether it ended
normally or by a throw. -/
def stateOfRun : Except ResState ResState → ResState
  | .ok st => st
  | .error st => st

/-- Concrete fixture: a request environment. -/
def envW : Env := ⟨"req-1", fun n => 1700000000 + n⟩

/-- Concrete fixture: a chat catalog with one provider and one model. -/
def chatCatW : Catalog := [("openai", ["gpt-4"])]

/-- Concrete fixture: an embedding catalog with one provider and one model. -/
def embCatW : Catalog := [("openai", ["text-embedding-3-small"])]

/-- Concrete fixture: a well-formed request body. -/
def bodyW : RawBody := ⟨[⟨"user", "hello"⟩], .undef, .undef, .undef⟩

/-- Concrete fixture: the validated parameters of bodyW. -/
def paramsW : Params := ⟨[⟨"user", "hello"⟩], .val "perplexica", .val false, .val false⟩

/-- Concrete fixture: an agent event of kind response. -/
def evRespW : DataEvent :=
  ⟨"\x7b\"type\":\"response\",\"data\":\"hi\"\x7d",
   .ok (.obj [("type", .str "response"), ("data", .str "hi")])⟩

/-- Concrete fixture: an agent event of another kind. -/
def evSourcesW : DataEvent :=
  ⟨"\x7b\"type\":\"sources\",\"data\":[]\x7d",
   .ok (.obj [("type", .str "sources"), ("data", .arr [])])⟩

/-- Concrete fixture: an agent payload that is not valid JSON. -/
def evBadW : DataEvent := ⟨"not json", .error ()⟩

/-- Concrete fixture: an agent payload that parses to the JSON literal null,
on which the property access of the kind dispatch throws. -/
def evNullW : DataEvent := ⟨"null", .ok .jnull⟩

/-- Concrete fixture: the response state after forwarding evRespW from the
initial state. -/
def stW : ResState :=
  ⟨true, some 200, sseHeaders,
   [.chunk ⟨"req-1", "chat.completion.chunk", 1700000000, .val "perplexica",
     [⟨some (.str "hi"), 0, none⟩]⟩], false⟩

theorem startStreamIfNeed_body (st : ResState) : (startStreamIfNeed st).body = st.body := by
  unfold startStreamIfNeed; split <;> rfl

theorem startStreamIfNeed_ended (st : ResState) : (startStreamIfNeed st).ended = st.ended := by
  unfold startStreamIfNeed; split <;> rfl

theorem chunksOf_append (a b : List BodyItem) :
    chunksOf (a ++ b) = chunksOf a ++ chunksOf b := by
  unfold chunksOf; exact List.filterMap_append ..

theorem writeDelta_body (env : Env) (ctx : ReqCtx) (st : ResState) (ct : Option JsonValue)
    (fr : Option String) :
    (writeDelta env ctx st ct fr).body =
      st.body ++ [.chunk (createDelta env ctx (chunksOf st.body).length ct fr)] := by
  unfold writeDelta
  simp [startStreamIfNeed_body]

theorem writeDelta_ended (env : Env) (ctx : ReqCtx) (st : ResState) (ct : Option JsonValue)
    (fr : Option String) : (writeDelta env ctx st ct fr).ended = st.ended := by
  unfold writeDelta
  simp [startStreamIfNeed_ended]

theorem writeDelta_initial (env : Env) (ctx : ReqCtx) (ct : Option JsonValue)
    (fr : Option String) :
    writeDelta env ctx ResState.initial ct fr =
      ⟨true, some 200, sseHeaders, [.chunk (createDelta env ctx 0 ct fr)], false⟩ := rfl

theorem hasFinish_createDelta_none (env : Env) (ctx : ReqCtx) (n : Nat) (ct : Option JsonValue) :
    hasFinish (createDelta env ctx n ct none) = false := rfl

theorem chunkContents_writeDelta (env : Env) (ctx : ReqCtx) (st : ResState)
    (ct : Option JsonValue) (fr : Option String) :
    chunkContents (writeDelta env ctx st ct fr).body = chunkContents st.body ++ [ct] := by
  unfold chunkContents
  rw [writeDelta_body, List.filterMap_append]
  rfl

theorem streamInv_initial : StreamInv ResState.initial := by
  refine ⟨?_, ?_, ?_, rfl, fun _ => rfl, ?_⟩
  · intro c hc; simp [chunksOf, ResState.initial] at hc
  · simp [ResState.initial]
  · intro e; simp [ResState.initial]
  · intro h; simp [ResState.initial] at h

theorem streamInv_writeDelta (env : Env) (ctx : ReqCtx) (st : ResState) (ct : Option JsonValue)
    (h : StreamInv st) : StreamInv (writeDelta env ctx st ct none) := by
  obtain ⟨h1, h2, h3, h4, h5, h6⟩ := h
  by_cases hs : st.started = true
  · obtain ⟨hst, hhd⟩ := h6 hs
    refine ⟨?_, ?_, ?_, ?_, ?_, ?_⟩
    · intro c hc
      rw [writeDelta_body, chunksOf_append] at hc
      rcases List.mem_append.1 hc with hold | hnew
      · exact h1 c hold
      · simp [chunksOf] at hnew
        rw [hnew]
        exact hasFinish_createDelta_none ..
    · rw [writeDelta_body]
      intro hmem
      rcases List.mem_append.1 hmem with hold | hnew
      · exact h2 hold
      · simp at hnew
    · intro e
      rw [writeDelta_body]
      intro hmem
      rcases List.mem_append.1 hmem with hold | hnew
      · exact h3 e hold
      · simp at hnew
    · rw [writeDelta_ended]; exact h4
    · intro hcontra
      unfold writeDelta startStreamIfNeed at hcontra
      simp [hs] at hcontra
    · intro _
      unfold writeDelta startStreamIfNeed
      simp [hs]
      exact ⟨hst, hhd⟩
  · have hini : st = ResState.initial := h5 (by simpa using hs)
    subst hini
    rw [writeDelta_initial]
    refine ⟨?_, ?_, ?_, rfl, ?_, ?_⟩
    · intro c hc
      simp [chunksOf] at hc
      rw [hc]
      exact hasFinish_createDelta_none ..
    · simp
    · intro e; simp
    · intro hcontra; cases hcontra
    · intro _; exact ⟨rfl, rfl⟩

theorem streamInv_onData (env : Env) (ctx : ReqCtx) (st st1 : ResState) (ev : DataEvent)
    (h : StreamInv st) (hd : onData env ctx st ev = .ok st1) : StreamInv st1 := by
  unfold onData at hd
  split at hd
  · cases hd
    exact streamInv_writeDelta env ctx st _ h
  · split at hd
    · cases hd
    · split at hd
      · cases hd
      · split at hd
        · cases hd
          exact streamInv_writeDelta env ctx st _ h
        · cases hd
          exact h

theorem streamInv_processEvents (env : Env) (ctx : ReqCtx) :
    ∀ (evs : List DataEvent) (st st1 : ResState), StreamInv st →
      processEvents env ctx st evs = .ok st1 → StreamInv st1 := by
  intro evs
  induction evs with
  | nil =>
    intro st st1 h hp
    unfold processEvents at hp
    cases hp
    exact h
  | cons ev rest ih =>
    intro st st1 h hp
    unfold processEvents at hp
    cases hd : onData env ctx st ev with
    | error st2 => rw [hd] at hp; cases hp
    | ok st2 =>
      rw [hd] at hp
      exact ih st2 st1 (streamInv_onData env ctx st st2 ev h hd) hp

theorem requestParamsSchema_messages (b : RawBody) (p : Params)
    (h : requestParamsSchema b = .ok p) : p.messages = b.messages := by
  unfold requestParamsSchema at h
  split at h
  · cases h
  · split at h
    · cases h
    · split at h
      · split at h
        · injection h with hv; subst hv; rfl
        · cases h
      · injection h with hv; subst hv; rfl
      · injection h with hv; subst hv; rfl

theorem validate_ok_last (b : RawBody) (p : Params) (h : validate b = .ok p) :
    p.messages = b.messages ∧
    ∃ lastMsg, b.messages.getLast? = some lastMsg ∧
      lastMsg.role = "user" ∧ lastMsg.content ≠ "" := by
  unfold validate at h
  cases hq : requestParamsSchema b with
  | error e => rw [hq] at h; cases h
  | ok q =>
    rw [hq] at h
    dsimp only at h
    have hmsg : q.messages = b.messages := requestParamsSchema_messages b q hq
    cases hl : q.messages.getLast? with
    | none => rw [hl] at h; cases h
    | some lastMsg =>
      rw [hl] at h
      dsimp only at h
      split at h
      · injection h with hv
        subst hv
        rename_i hcond
        rw [Bool.and_eq_true] at hcond
        refine ⟨hmsg, lastMsg, ?_, ?_, ?_⟩
        · rw [← hmsg]; exact hl
        · exact eq_of_beq hcond.1
        · intro hc
          have := hcond.2
          rw [hc] at this
          simp at this
      · cases h

theorem chatCompletions_run (b : RawBody) (cc ec : Catalog) (evs : List DataEvent)
    (term : Terminator) (env : Env) (p : Params) (cm em : String)
    (hv : validate b = .ok p)
    (hc : selectFirstModel cc = .ok (some cm))
    (he : selectFirstModel ec = .ok (some em)) :
    chatCompletions b cc ec evs term env =
      match processEvents env p.ctx ResState.initial evs with
      | .error st => .thrown st
      | .ok st =>
        match term with
        | .endOfStream => .ok (onEnd env p.ctx st)
        | .errorSignal => .ok (onError st) := by
  unfold chatCompletions routeAfterValidate
  rw [hv, hc, he]
  simp

/-- C3: the claim states that an empty chat or embedding catalog yields an
HTTP 500 internal_server_error response. The code instead computes
Object.keys of an undefined provider map, which raises a TypeError before its
own availability guard, so the request is left unanswered: the outcome is a
thrown exception with nothing committed (no status, no body). The 500
response is only produced in the neighbouring case of a present provider
whose model map is empty, evaluated in the second conjunct. -/
theorem c3_empty_catalog_uncaught :
    chatCompletions ⟨[⟨"user", "hi"⟩], .undef, .undef, .undef⟩ [] embCatW
        [] .endOfStream envW = .thrown ResState.initial ∧
    ResState.initial.status = none ∧ ResState.initial.body = [] ∧
    chatCompletions ⟨[⟨"user", "hi"⟩], .undef, .undef, .undef⟩ [("openai", [])] embCatW
        [] .endOfStream envW =
      .ok ⟨false, some 500, [],
           [.errorJson ⟨"internal_server_error", "Model or Embedding not found", none, 500⟩],
           true⟩ :=
  ⟨rfl, rfl, rfl, rfl⟩

/-- C10: when response_raw is falsy, the data callback applies JSON.parse to
the payload before any dispatch; on a payload that is not valid JSON the
parse throws, so the callback raises instead of silently dropping the event,
and the processing of the trace aborts at that event. -/
theorem c10_parse_failure_throws (env : Env) (ctx : ReqCtx) (st : ResState)
    (ev : DataEvent) (rest : List DataEvent)
    (hraw : ctx.response_raw.truthy = false)
    (hbad : ev.parsed = .error ()) :
    onData env ctx st ev = .error st ∧
    processEvents env ctx st (ev :: rest) = .error st := by
  have h1 : onData env ctx st ev = .error st := by
    unfold onData
    rw [hraw, hbad]
    simp
  refine ⟨h1, ?_⟩
  unfold processEvents
  rw [h1]

theorem c10_witness :
    onData envW paramsW.ctx ResState.initial evBadW = .error ResState.initial ∧
    processEvents envW paramsW.ctx ResState.initial (evBadW :: []) = .error ResState.initial :=
  c10_parse_failure_throws envW paramsW.ctx ResState.initial evBadW [] rfl rfl

/-- C4: a request with an empty messages array, or whose final message is not
a user message, or whose final message has empty content, is rejected by the
validation step: the response is the 400 invalid_request_error JSON object,
with no headers set, no body chunks and no stream start, whatever the
catalogs and the agent trace. -/
theorem c4_invalid_request_rejected (b : RawBody) (cc ec : Catalog)
    (evs : List DataEvent) (term : Terminator) (env : Env)
    (h : b.messages = [] ∨
      ∃ lastMsg, b.messages.getLast? = some lastMsg ∧
        (lastMsg.role ≠ "user" ∨ lastMsg.content = "")) :
    ∃ msg, chatCompletions b cc ec evs term env =
      .ok ⟨false, some 400, [],
           [.errorJson ⟨"invalid_request_error", msg, none, 400⟩], true⟩ := by
  cases hv : validate b with
  | error e =>
    refine ⟨e, ?_⟩
    unfold chatCompletions
    rw [hv]
    rfl
  | ok p =>
    exfalso
    obtain ⟨_, lastMsg, hl, hrole, hcont⟩ := validate_ok_last b p hv
    rcases h with hemp | ⟨lastMsg2, hl2, hbad⟩
    · rw [hemp] at hl
      cases hl
    · rw [hl] at hl2
      injection hl2 with hl2
      subst hl2
      rcases hbad with hr | hc
      · exact hr hrole
      · exact hcont hc

theorem c4_witness :
    ∃ msg, chatCompletions ⟨[], .undef, .undef, .undef⟩ chatCatW embCatW [] .endOfStream envW =
      .ok ⟨false, some 400, [],
           [.errorJson ⟨"invalid_request_error", msg, none, 400⟩], true⟩ :=
  c4_invalid_request_rejected ⟨[], .undef, .undef, .undef⟩ chatCatW embCatW [] .endOfStream envW
    (Or.inl rfl)

theorem onEnd_body (env : Env) (ctx : ReqCtx) (st : ResState) :
    (onEnd env ctx st).body =
      st.body ++ [.chunk (createDelta env ctx (chunksOf st.body).length
        (some (.str "")) (some "stop")), .done] := by
  unfold onEnd
  simp [writeDelta_body]

theorem onEnd_ended (env : Env) (ctx : ReqCtx) (st : ResState) :
    (onEnd env ctx st).ended = true := rfl

/-- C1: on a request that validates, with models available, whose event
processing completes without a throw and whose agent source ends normally,
the response body is the previously forwarded chunks followed by exactly one
terminal chunk with empty string content and finish_reason stop, then the
DONE line, and the body is then closed; no other chunk of the request carries
a non-null finish reason. -/
theorem c1_single_terminal_stop (b : RawBody) (cc ec : Catalog) (evs : List DataEvent)
    (env : Env) (p : Params) (cm em : String) (st : ResState)
    (hv : validate b = .ok p)
    (hc : selectFirstModel cc = .ok (some cm))
    (he : selectFirstModel ec = .ok (some em))
    (hp : processEvents env p.ctx ResState.initial evs = .ok st) :
    ∃ r, chatCompletions b cc ec evs .endOfStream env = .ok r ∧
      r.ended = true ∧
      (∃ stopC, r.body = st.body ++ [BodyItem.chunk stopC, BodyItem.done] ∧
        stopC.choices = [⟨some (JsonValue.str ""), 0, some "stop"⟩]) ∧
      (∀ c ∈ chunksOf st.body, hasFinish c = false) ∧
      ((chunksOf r.body).filter hasFinish).length = 1 := by
  have hinv := streamInv_processEvents env p.ctx evs ResState.initial st streamInv_initial hp
  obtain ⟨hfin, _, _, _, _, _⟩ := hinv
  refine ⟨onEnd env p.ctx st, ?_, onEnd_ended .., ?_, hfin, ?_⟩
  · rw [chatCompletions_run b cc ec evs .endOfStream env p cm em hv hc he, hp]
  · exact ⟨_, onEnd_body .., rfl⟩
  · rw [onEnd_body, chunksOf_append, List.filter_append]
    have hnil : (chunksOf st.body).filter hasFinish = [] := by
      rw [List.filter_eq_nil_iff]
      intro c hc2
      simp [hfin c hc2]
    rw [hnil]
    rfl

theorem c1_witness :
    ∃ r, chatCompletions bodyW chatCatW embCatW [evRespW] .endOfStream envW = .ok r ∧
      r.ended = true ∧
      (∃ stopC, r.body = stW.body ++ [BodyItem.chunk stopC, BodyItem.done] ∧
        stopC.choices = [⟨some (JsonValue.str ""), 0, some "stop"⟩]) ∧
      (∀ c ∈ chunksOf stW.body, hasFinish c = false) ∧
      ((chunksOf r.body).filter hasFinish).length = 1 :=
  c1_single_terminal_stop bodyW chatCatW embCatW [evRespW] envW paramsW
    "gpt-4" "text-embedding-3-small" stW rfl rfl rfl rfl

/-- C2: on agent error after a run of data events that committed no chunk
(started still false), the response is the structured 500
internal_server_error JSON object with the generic constant message and
nothing else; after at least one committed chunk (started true), the body is
closed unchanged: no terminal stop chunk, no DONE line and no error object
are written. -/
theorem c2_error_before_after_first_byte (b : RawBody) (cc ec : Catalog)
    (evs : List DataEvent) (env : Env) (p : Params) (cm em : String) (st : ResState)
    (hv : validate b = .ok p)
    (hc : selectFirstModel cc = .ok (some cm))
    (he : selectFirstModel ec = .ok (some em))
    (hp : processEvents env p.ctx ResState.initial evs = .ok st) :
    chatCompletions b cc ec evs .errorSignal env = .ok (onError st) ∧
    (st.started = false →
      onError st = ⟨false, some 500, [],
        [.errorJson ⟨"internal_server_error",
          "An error has occurred please try again later", none, 500⟩], true⟩) ∧
    (st.started = true →
      (onError st).body = st.body ∧ (onError st).ended = true ∧
      BodyItem.done ∉ (onError st).body ∧
      (∀ e, BodyItem.errorJson e ∉ (onError st).body) ∧
      (∀ c ∈ chunksOf (onError st).body, hasFinish c = false)) := by
  have hinv := streamInv_processEvents env p.ctx evs ResState.initial st streamInv_initial hp
  obtain ⟨hfin, hdone, herr, _, hini, _⟩ := hinv
  refine ⟨?_, ?_, ?_⟩
  · rw [chatCompletions_run b cc ec evs .errorSignal env p cm em hv hc he, hp]
  · intro hns
    rw [hini hns]
    rfl
  · intro hs
    have honerr : onError st = { st with ended := true } := by
      unfold onError
      simp [hs]
    rw [honerr]
    exact ⟨rfl, rfl, hdone, herr, hfin⟩

theorem c2_witness :
    (chatCompletions bodyW chatCatW embCatW [evRespW] .errorSignal envW = .ok (onError stW) ∧
    (stW.started = false →
      onError stW = ⟨false, some 500, [],
        [.errorJson ⟨"internal_server_error",
          "An error has occurred please try again later", none, 500⟩], true⟩) ∧
    (stW.started = true →
      (onError stW).body = stW.body ∧ (onError stW).ended = true ∧
      BodyItem.done ∉ (onError stW).body ∧
      (∀ e, BodyItem.errorJson e ∉ (onError stW).body) ∧
      (∀ c ∈ chunksOf (onError stW).body, hasFinish c = false))) :=
  c2_error_before_after_first_byte bodyW chatCatW embCatW [evRespW] envW paramsW
    "gpt-4" "text-embedding-3-small" stW rfl rfl rfl rfl

/-- C9: implicit behaviour of the lazy stream start. If the agent source ends
normally after a run of data events that committed nothing (state still
initial), the terminal stop chunk itself triggers the stream start: the
response still commits status 200 with the three event-stream headers, and
the body is exactly one stop chunk with empty content followed by the DONE
line. -/
theorem c9_empty_stream_still_200 (b : RawBody) (cc ec : Catalog) (evs : List DataEvent)
    (env : Env) (p : Params) (cm em : String)
    (hv : validate b = .ok p)
    (hc : selectFirstModel cc = .ok (some cm))
    (he : selectFirstModel ec = .ok (some em))
    (hp : processEvents env p.ctx ResState.initial evs = .ok ResState.initial) :
    chatCompletions b cc ec evs .endOfStream env =
      .ok ⟨true, some 200, sseHeaders,
        [.chunk (createDelta env p.ctx 0 (some (.str "")) (some "stop")), .done], true⟩ := by
  rw [chatCompletions_run b cc ec evs .endOfStream env p cm em hv hc he, hp]
  rfl

theorem c9_witness :
    chatCompletions bodyW chatCatW embCatW [evSourcesW] .endOfStream envW =
      .ok ⟨true, some 200, sseHeaders,
        [.chunk (createDelta envW paramsW.ctx 0 (some (.str "")) (some "stop")), .done], true⟩ :=
  c9_empty_stream_still_200 bodyW chatCatW embCatW [evSourcesW] envW paramsW
    "gpt-4" "text-embedding-3-small" rfl rfl rfl rfl

/-- C5: the claim states that any request containing a message with empty
content, at any position, is rejected with HTTP 400 before backend work. The
zod schema only requires content to be a string and the manual check only
inspects the last message, so a request whose first message has empty content
validates and receives a full 200 streamed response. -/
theorem c5_counterexample :
    validate ⟨[⟨"assistant", ""⟩, ⟨"user", "hi"⟩], .undef, .undef, .undef⟩ =
      .ok ⟨[⟨"assistant", ""⟩, ⟨"user", "hi"⟩], .val "perplexica", .val false, .val false⟩ ∧
    chatCompletions ⟨[⟨"assistant", ""⟩, ⟨"user", "hi"⟩], .undef, .undef, .undef⟩
        chatCatW embCatW [] .endOfStream envW =
      .ok ⟨true, some 200, sseHeaders,
        [.chunk ⟨"req-1", "chat.completion.chunk", 1700000000, .val "perplexica",
          [⟨some (.str ""), 0, some "stop"⟩]⟩, .done], true⟩ :=
  ⟨rfl, rfl⟩

/-- C5 amended: every message must have a role from the enum and a string
content; a request containing a message with a role outside the enum is
rejected with HTTP 400 invalid_request_error before any backend work, while
an empty content is rejected only when it occurs in the final message. -/
theorem c5_amended_role_enum (b : RawBody) (cc ec : Catalog) (evs : List DataEvent)
    (term : Terminator) (env : Env)
    (h : ∃ m ∈ b.messages, roleOk m.role = false) :
    ∃ msg, chatCompletions b cc ec evs term env =
      .ok ⟨false, some 400, [],
           [.errorJson ⟨"invalid_request_error", msg, none, 400⟩], true⟩ := by
  have hcond : ¬ (b.messages.all fun m => roleOk m.role) = true := by
    intro hall
    rw [List.all_eq_true] at hall
    obtain ⟨m, hm, hfalse⟩ := h
    have := hall m hm
    rw [hfalse] at this
    cases this
  have hschema : requestParamsSchema b = .error "invalid enum value for role" := by
    unfold requestParamsSchema
    rw [if_pos hcond]
  have hval : validate b = .error "invalid enum value for role" := by
    unfold validate
    rw [hschema]
  refine ⟨"invalid enum value for role", ?_⟩
  unfold chatCompletions
  rw [hval]
  rfl

theorem c5_amended_witness :
    ∃ msg, chatCompletions ⟨[⟨"robot", "x"⟩, ⟨"user", "y"⟩], .undef, .undef, .undef⟩
        chatCatW embCatW [] .endOfStream envW =
      .ok ⟨false, some 400, [],
           [.errorJson ⟨"invalid_request_error", msg, none, 400⟩], true⟩ :=
  c5_amended_role_enum ⟨[⟨"robot", "x"⟩, ⟨"user", "y"⟩], .undef, .undef, .undef⟩
    chatCatW embCatW [] .endOfStream envW ⟨⟨"robot", "x"⟩, List.mem_cons_self .., rfl⟩

/-- C6: the claim asserts that with response_raw false every event whose
parsed payload is not of kind response is silently dropped with no error. The
payload null parses as JSON, yet reading its type property in the callback
throws a TypeError: the event is neither dropped nor forwarded, processing of
the trace aborts there, and the whole request ends as a thrown exception
instead of a normal stream. -/
theorem c6_counterexample :
    onData envW paramsW.ctx ResState.initial evNullW = .error ResState.initial ∧
    processEvents envW paramsW.ctx ResState.initial [evNullW] = .error ResState.initial ∧
    chatCompletions bodyW chatCatW embCatW [evNullW] .endOfStream envW =
      .thrown ResState.initial :=
  ⟨rfl, rfl, rfl⟩

/-- C6 amended: refinement of the forwarding rules. When response_raw is
truthy every event contributes exactly one delta chunk whose content is the
raw payload verbatim. When it is falsy and every payload parses to a value
whose kind access does not throw (any JSON value other than null), exactly
the events whose parsed payload has kind response are forwarded, each
contributing one chunk whose content is the data field, and all other kinds
contribute nothing and raise no error; a payload parsing to null instead
throws on the kind access, like an unparseable payload. The forwarded
contents, in order, equal the spec-side function forwardedContents. -/
theorem c6_amended_forwarding (env : Env) (ctx : ReqCtx) :
    ∀ (evs : List DataEvent) (st : ResState),
      (ctx.response_raw.truthy = false →
        ∀ ev ∈ evs, ∃ v tf, ev.parsed = .ok v ∧ v.getField "type" = .ok tf) →
      ∃ st1, processEvents env ctx st evs = .ok st1 ∧
        chunkContents st1.body =
          chunkContents st.body ++ forwardedContents ctx.response_raw.truthy evs := by
  intro evs
  induction evs with
  | nil =>
    intro st _
    refine ⟨st, rfl, ?_⟩
    cases hr : ctx.response_raw.truthy <;> simp [forwardedContents, hr]
  | cons ev rest ih =>
    intro st h
    cases hr : ctx.response_raw.truthy with
    | true =>
      have hd : onData env ctx st ev = .ok (writeDelta env ctx st (some (.str ev.raw)) none) := by
        unfold onData
        rw [hr]
        simp
      obtain ⟨st1, hps, hcc⟩ :=
        ih (writeDelta env ctx st (some (.str ev.raw)) none) (fun hf => absurd hf (by simp [hr]))
      refine ⟨st1, ?_, ?_⟩
      · unfold processEvents
        rw [hd]
        exact hps
      · rw [hcc, chunkContents_writeDelta, List.append_assoc, List.singleton_append, hr]
        congr 1
    | false =>
      obtain ⟨v, tf, hv, htf⟩ := h hr ev (List.mem_cons_self ..)
      have hrest : ctx.response_raw.truthy = false →
          ∀ e ∈ rest, ∃ v tf, e.parsed = .ok v ∧ v.getField "type" = .ok tf :=
        fun hf e he => h hf e (List.mem_cons_of_mem _ he)
      cases hk : isResponseField tf with
      | true =>
        have hd : onData env ctx st ev = .ok (writeDelta env ctx st (dataField v) none) := by
          unfold onData
          rw [hr, hv]
          simp [htf, hk]
        obtain ⟨st1, hps, hcc⟩ := ih (writeDelta env ctx st (dataField v) none) hrest
        refine ⟨st1, ?_, ?_⟩
        · unfold processEvents
          rw [hd]
          exact hps
        · rw [hcc, chunkContents_writeDelta, List.append_assoc, List.singleton_append, hr]
          congr 1
          simp [forwardedContents, List.filter_cons, hv, isResponseKind, htf, hk]
      | false =>
        have hd : onData env ctx st ev = .ok st := by
          unfold onData
          rw [hr, hv]
          simp [htf, hk]
        obtain ⟨st1, hps, hcc⟩ := ih st hrest
        refine ⟨st1, ?_, ?_⟩
        · unfold processEvents
          rw [hd]
          exact hps
        · rw [hcc, hr]
          congr 1
          simp [forwardedContents, List.filter_cons, hv, isResponseKind, htf, hk]

theorem c6_amended_witness :
    ∃ st1, processEvents envW paramsW.ctx ResState.initial [evRespW, evSourcesW] = .ok st1 ∧
      chunkContents st1.body =
        chunkContents ResState.initial.body ++
          forwardedContents paramsW.ctx.response_raw.truthy [evRespW, evSourcesW] :=
  c6_amended_forwarding envW paramsW.ctx [evRespW, evSourcesW] ResState.initial
    (by
      intro _ ev hev
      rcases List.mem_cons.1 hev with rfl | hev2
      · exact ⟨_, _, rfl, rfl⟩
      · rcases List.mem_cons.1 hev2 with rfl | h3
        · exact ⟨_, _, rfl, rfl⟩
        · cases h3)

theorem chunksOf_throwErr (st : ResState) (code : Nat) (ty msg : String) :
    chunksOf (throwErr st code ty msg).body = chunksOf st.body := by
  unfold throwErr
  simp [chunksOf_append, chunksOf]

theorem goodChunks_initial (env : Env) (ctx : ReqCtx) :
    GoodChunks env ctx ResState.initial := by
  intro c hc
  simp [chunksOf, ResState.initial] at hc

theorem goodChunks_writeDelta (env : Env) (ctx : ReqCtx) (st : ResState)
    (ct : Option JsonValue) (fr : Option String) (h : GoodChunks env ctx st)
    (hstr : ∃ s, ct = some (.str s))
    (hfr : fr = none ∨ (fr = some "stop" ∧ ct = some (.str ""))) :
    GoodChunks env ctx (writeDelta env ctx st ct fr) := by
  intro c hcmem
  rw [writeDelta_body, chunksOf_append] at hcmem
  rcases List.mem_append.1 hcmem with hold | hnew
  · exact h c hold
  · simp [chunksOf] at hnew
    subst hnew
    exact ⟨rfl, rfl, ⟨_, rfl⟩, rfl, ct, fr, rfl, hstr, hfr⟩

theorem goodChunks_run (env : Env) (ctx : ReqCtx) :
    ∀ (evs : List DataEvent) (st : ResState), GoodChunks env ctx st →
      conformantTrace ctx evs →
      GoodChunks env ctx (stateOfRun (processEvents env ctx st evs)) := by
  intro evs
  induction evs with
  | nil =>
    intro st h _
    exact h
  | cons ev rest ih =>
    intro st h hconf
    have hrest : conformantTrace ctx rest := by
      rcases hconf with hr | hall
      · exact Or.inl hr
      · exact Or.inr fun e he => hall e (List.mem_cons_of_mem _ he)
    by_cases hrawt : ctx.response_raw.truthy = true
    · have hd : onData env ctx st ev = .ok (writeDelta env ctx st (some (.str ev.raw)) none) := by
        unfold onData
        rw [hrawt]
        simp
      unfold processEvents
      rw [hd]
      exact ih _ (goodChunks_writeDelta env ctx st _ none h ⟨ev.raw, rfl⟩ (Or.inl rfl)) hrest
    · have hrf : ctx.response_raw.truthy = false := by simpa using hrawt
      rcases hconf with hr | hall
      · exact absurd hr hrawt
      obtain ⟨v, hv, hresp⟩ := hall ev (List.mem_cons_self ..)
      cases hgf : v.getField "type" with
      | error u =>
        have hd : onData env ctx st ev = .error st := by
          unfold onData
          rw [hrf, hv]
          simp [hgf]
        unfold processEvents
        rw [hd]
        exact h
      | ok tf =>
        cases hk : isResponseField tf with
        | true =>
          have hkind : isResponseKind v = true := by
            unfold isResponseKind
            rw [hgf]
            exact hk
          obtain ⟨s, hs⟩ := hresp hkind
          have hsd : dataField v = some (.str s) := by
            unfold dataField
            rw [hs]
          have hd : onData env ctx st ev = .ok (writeDelta env ctx st (dataField v) none) := by
            unfold onData
            rw [hrf, hv]
            simp [hgf, hk]
          unfold processEvents
          rw [hd]
          exact ih _ (goodChunks_writeDelta env ctx st _ none h ⟨s, by rw [hsd]⟩ (Or.inl rfl)) hrest
        | false =>
          have hd : onData env ctx st ev = .ok st := by
            unfold onData
            rw [hrf, hv]
            simp [hgf, hk]
          unfold processEvents
          rw [hd]
          exact ih st h hrest

/-- C7: every chunk committed for a request carries the request-scoped uuid
(hence one stable id across all chunks of the request), the object tag
chat.completion.chunk, a clock-derived integer timestamp, the request model,
and exactly one choice at index 0 whose content is a string and whose finish
reason is null on every content chunk (only the terminal stop chunk, with
empty content, carries a non-null reason). Stated under the agent contract
that parsed response payloads carry a text data field. -/
theorem c7_chunk_shape (b : RawBody) (cc ec : Catalog) (evs : List DataEvent)
    (term : Terminator) (env : Env) (p : Params)
    (hv : validate b = .ok p)
    (hconf : conformantTrace p.ctx evs) :
    ∀ c ∈ chunksOf (chatCompletions b cc ec evs term env).resState.body,
      goodChunk env p.ctx c := by
  unfold chatCompletions
  rw [hv]
  dsimp only
  unfold routeAfterValidate
  cases hcc : selectFirstModel cc with
  | error u =>
    intro c hc
    simp [Outcome.resState, chunksOf, ResState.initial] at hc
  | ok llm =>
    dsimp only
    cases hec : selectFirstModel ec with
    | error u =>
      intro c hc
      simp [Outcome.resState, chunksOf, ResState.initial] at hc
    | ok emb =>
      dsimp only
      by_cases hne : (llm.isNone || emb.isNone) = true
      · rw [if_pos hne]
        intro c hc
        simp [Outcome.resState, throwErr, chunksOf, ResState.initial] at hc
      · rw [if_neg hne]
        have hgood := goodChunks_run env p.ctx evs ResState.initial
          (goodChunks_initial env p.ctx) hconf
        cases hrun : processEvents env p.ctx ResState.initial evs with
        | error st =>
          rw [hrun] at hgood
          dsimp only
          intro c hc
          exact hgood c hc
        | ok st =>
          rw [hrun] at hgood
          dsimp only
          cases term with
          | endOfStream =>
            intro c hc
            have hc2 : c ∈ chunksOf (onEnd env p.ctx st).body := hc
            rw [onEnd_body, chunksOf_append] at hc2
            rcases List.mem_append.1 hc2 with hold | hnew
            · exact hgood c hold
            · simp [chunksOf] at hnew
              subst hnew
              exact ⟨rfl, rfl, ⟨_, rfl⟩, rfl, some (.str ""), some "stop", rfl,
                ⟨"", rfl⟩, Or.inr ⟨rfl, rfl⟩⟩
          | errorSignal =>
            intro c hc
            have hc2 : c ∈ chunksOf (onError st).body := hc
            unfold onError at hc2
            split at hc2
            · exact hgood c hc2
            · rw [chunksOf_throwErr] at hc2
              exact hgood c hc2

theorem c7_witness :
    goodChunk envW paramsW.ctx
      ⟨"req-1", "chat.completion.chunk", 1700000000, .val "perplexica",
        [⟨some (.str "hi"), 0, none⟩]⟩ :=
  c7_chunk_shape bodyW chatCatW embCatW [evRespW, evSourcesW] .endOfStream envW paramsW rfl
    (Or.inr (by
      intro ev hev
      rcases List.mem_cons.1 hev with rfl | hev2
      · exact ⟨_, rfl, fun _ => ⟨"hi", rfl⟩⟩
      · rcases List.mem_cons.1 hev2 with rfl | h3
        · exact ⟨_, rfl, fun hk => absurd hk (by decide)⟩
        · cases h3))
    ⟨"req-1", "chat.completion.chunk", 1700000000, .val "perplexica",
      [⟨some (.str "hi"), 0, none⟩]⟩
    (List.Mem.head _)

theorem requestParamsSchema_stream (b : RawBody) (s : JsOpt Bool) :
    requestParamsSchema { b with stream := s } =
      (requestParamsSchema b).map fun p => { p with stream := s.withDefault false } := by
  unfold requestParamsSchema
  dsimp only
  by_cases h1 : (b.messages.all fun m => roleOk m.role) = true
  · by_cases h2 : b.messages.isEmpty = true
    · simp [h1, h2, Except.map]
    · cases hm : b.model with
      | val m =>
        by_cases h3 : (m == "perplexica") = true
        · simp [h1, h2, h3, Except.map]
        · simp [h1, h2, h3, Except.map]
      | null => simp [h1, h2, Except.map]
      | undef => simp [h1, h2, Except.map]
  · simp [h1, Except.map]

theorem validate_stream (b : RawBody) (s : JsOpt Bool) :
    validate { b with stream := s } =
      (validate b).map fun p => { p with stream := s.withDefault false } := by
  unfold validate
  rw [requestParamsSchema_stream]
  cases hq : requestParamsSchema b with
  | error e => rfl
  | ok p =>
    dsimp only [Except.map]
    cases hl : p.messages.getLast? with
    | none => rfl
    | some lastMsg =>
      by_cases hcond : (lastMsg.role == "user" && lastMsg.content != "") = true
      · simp [hcond]
      · simp [hcond]

/-- C8: the stream flag has no effect. Two requests identical except for the
value of the stream field (any of present true or false, null, or absent)
produce identical outcomes: same status, headers, body chunks, terminal
framing and error routing, for every catalog pair, agent trace and
environment. -/
theorem c8_stream_flag_no_effect (b : RawBody) (s1 s2 : JsOpt Bool) (cc ec : Catalog)
    (evs : List DataEvent) (term : Terminator) (env : Env) :
    chatCompletions { b with stream := s1 } cc ec evs term env =
      chatCompletions { b with stream := s2 } cc ec evs term env := by
  unfold chatCompletions
  rw [validate_stream b s1, validate_stream b s2]
  cases hv : validate b with
  | error e => rfl
  | ok p => rfl

end Perplexica
